import Mathlib

/-!
Verification of the latency-measuring load harness of the kulyk-rust client
scripts (`testing.py` and `testing_highload.py`).

The embedding models:
 - the HTTP POST request each script builds (`requests.post(addr, json={...})`),
 - the measurement loop of `testing_highload.py`'s `__main__`
   (`for row in df.iter_rows(named=True): s0 = time.time(); elapsed = call(row["sentence"], s0); times.append(elapsed)`),
 - the final report (`print("Average:", sum(times) / len(times), "sec")`),
   including the Python semantics that dividing by a zero length raises
   `ZeroDivisionError`,
 - the dataset read (`pl.read_csv(...)`), which either yields the rows or
   raises before the loop starts.

Wall-clock time is modelled by a rational clock value threaded through the
loop; the transport stub reports, per call, either a failure (any exception
from `requests.post` or `resp.json()`) or the parsed response together with
the duration of the round trip, by which the clock advances.
-/

namespace Kulyk

/-- The fixed endpoint address, `addr` in both scripts. -/
def addr : String := "http://127.0.0.1:3000/translate"

/-- A language-pair direction, the (source_lang, target_lang) configuration of one pass. -/
structure Direction where
  source_lang : String
  target_lang : String
deriving DecidableEq

/-- An HTTP request as emitted by `requests.post(addr, json={...})`:
method, url, and the JSON body as an ordered list of key/value fields. -/
structure HttpPost where
  method : String
  url : String
  jsonBody : List (String × String)
deriving DecidableEq

/-- The request built by the harness for one sentence:
`requests.post(addr, json={"text": text, "source_lang": ..., "target_lang": ...})`. -/
def postFor (dir : Direction) (text : String) : HttpPost :=
  { method := "POST"
    url := addr
    jsonBody := [("text", text), ("source_lang", dir.source_lang),
                 ("target_lang", dir.target_lang)] }

/-- The parsed response body (`resp.json()`), opaque to the harness. -/
structure TranslationResponse where
  data : String
deriving DecidableEq

/-- One latency measurement: the elapsed duration together with the response. -/
structure LatencyMeasurement where
  elapsed : ℚ
  response : TranslationResponse
deriving DecidableEq

/-- One dataset row of `df.iter_rows(named=True)`: the `"sentence"` column,
plus whatever other columns the row carries (never read by the loop). -/
structure Row where
  sentence : String
  otherFields : List (String × String)
deriving DecidableEq

/-- A stub transport: given the call index and the request, either fail
(an exception out of `requests.post` / `resp.json()`) or return the parsed
response and the round-trip duration by which the wall clock advances. -/
def Transport : Type := ℕ → HttpPost → Except Unit (TranslationResponse × ℚ)

/-- Whether an `Except` is a success. -/
def isOk {ε α : Type} : Except ε α → Bool
  | .ok _ => true
  | .error _ => false

/-- The mutable state of one run: the wall clock, the issued requests,
the `times` list, and the recorded measurements. -/
structure RunState where
  now : ℚ
  posts : List HttpPost
  times : List ℚ
  measurements : List LatencyMeasurement
deriving DecidableEq

/-- The state before the loop: `times = []`, nothing issued, clock at `t0`. -/
def initState (t0 : ℚ) : RunState :=
  { now := t0, posts := [], times := [], measurements := [] }

/-- The measurement loop of `testing_highload.py`'s `__main__`:
for each row, take `s0 = time.time()`, issue the POST built from
`row["sentence"]` (the body of `call`), and on success parse the response,
compute `elapsed = time.time() - s0` and append it to `times`; on any
request failure the loop aborts, returning the partial state and `false`. -/
def runLoop (transport : Transport) (dir : Direction) :
    List Row → ℕ → RunState → RunState × Bool
  | [], _, st => (st, true)
  | r :: rs, i, st =>
    let s0 := st.now
    let post := postFor dir r.sentence
    match transport i post with
    | .error _ => ({ st with posts := st.posts ++ [post] }, false)
    | .ok (data, d) =>
      let elapsed := (s0 + d) - s0
      runLoop transport dir rs (i + 1)
        { now := s0 + d
          posts := st.posts ++ [post]
          times := st.times ++ [elapsed]
          measurements := st.measurements ++ [{ elapsed := elapsed, response := data }] }

/-- The summary derived at the end of a completed run. -/
structure RunSummary where
  count : ℕ
  mean_latency : ℚ
deriving DecidableEq

/-- How a run of `testing_highload.py` ends. -/
inductive Outcome where
  | summary (s : RunSummary)
  | requestFailed
  | zeroDivisionError
  | dataUnavailable
deriving DecidableEq

/-- The observable result of a run: the trace of the loop and how it ended. -/
structure MainResult where
  trace : RunState
  outcome : Outcome
deriving DecidableEq

/-- The harness operation: run the measurement loop over the rows, then
report `sum(times) / len(times)` — which, as in Python, raises
`ZeroDivisionError` when `times` is empty. -/
def run (transport : Transport) (dir : Direction) (rows : List Row) (t0 : ℚ) :
    MainResult :=
  let res := runLoop transport dir rows 0 (initState t0)
  if res.2 then
    if res.1.times.length = 0 then { trace := res.1, outcome := .zeroDivisionError }
    else
      { trace := res.1
        outcome := .summary
          { count := res.1.times.length
            mean_latency := res.1.times.sum / (res.1.times.length : ℚ) } }
  else { trace := res.1, outcome := .requestFailed }

/-- The direction hard-coded in `testing_highload.py`'s `call`:
`{"source_lang": "uk", "target_lang": "en"}`. -/
def dirUkEn : Direction := { source_lang := "uk", target_lang := "en" }

/-- `testing_highload.py`'s `__main__`: read the dataset
(`pl.read_csv(...)`, which either yields the rows or fails before any
request is sent), then run the measurement loop with the uk→en direction. -/
def mainHighload (dataset : Except Unit (List Row)) (transport : Transport)
    (t0 : ℚ) : MainResult :=
  match dataset with
  | .error _ => { trace := initState t0, outcome := .dataUnavailable }
  | .ok rows => run transport dirUkEn rows t0

/-- The request built by `testing.py`'s `call`:
`requests.post(addr, json={"text": text, "source_lang": "en", "target_lang": "uk"})`. -/
def testingCall (text : String) : HttpPost :=
  { method := "POST"
    url := addr
    jsonBody := [("text", text), ("source_lang", "en"), ("target_lang", "uk")] }

/-- The request built by `testing.py`'s `call_back`:
`requests.post(addr, json={"text": text, "source_lang": "uk", "target_lang": "en"})`. -/
def testingCallBack (text : String) : HttpPost :=
  { method := "POST"
    url := addr
    jsonBody := [("text", text), ("source_lang", "uk"), ("target_lang", "en")] }

/-- The first static sentence list of `testing.py`. -/
def sentences_ukrainian : List String :=
  ["Привіт, світе!", "Як справи?", "Я вивчаю програмування на Rust.",
   "Це дуже цікаво.", "Дякую за допомогу.", "Гарного дня!", "До побачення.",
   "Слава Україні!", "Героям слава!", "Україна понад усе!"]

/-- The second static sentence list of `testing.py`. -/
def sentences_english : List String :=
  ["Hello, world!", "How are you?", "I'm learning Rust programming.",
   "It's very interesting.", "Thank you for your help.", "Have a nice day!",
   "Goodbye.", "Glory to Ukraine!", "Glory to the heroes!", "Ukraine above all!"]

/-- The request sequence emitted by `testing.py`'s `__main__`:
all of the Ukrainian list through `call`, then all of the English list
through `call_back`. -/
def testingMainPosts : List HttpPost :=
  sentences_ukrainian.map testingCall ++ sentences_english.map testingCallBack

/-- Lookup of the "text" field of a request body. -/
def bodyText (p : HttpPost) : Option String :=
  (p.jsonBody.find? (fun kv => kv.1 == "text")).map (fun kv => kv.2)

/-- Lookup of the "source_lang" field of a request body. -/
def bodySourceLang (p : HttpPost) : Option String :=
  (p.jsonBody.find? (fun kv => kv.1 == "source_lang")).map (fun kv => kv.2)

/-- Lookup of the "target_lang" field of a request body. -/
def bodyTargetLang (p : HttpPost) : Option String :=
  (p.jsonBody.find? (fun kv => kv.1 == "target_lang")).map (fun kv => kv.2)

/-- A transport stub that always succeeds with a fixed response after one
time unit. -/
def stubOk : Transport := fun _ _ => .ok ({ data := "resp" }, 1)

/-- With an always-succeeding transport the loop completes, issues one
request per row in row order, and appends one time and one measurement
per row. -/
theorem runLoop_allOk (transport : Transport) (dir : Direction)
    (hok : ∀ i p, isOk (transport i p) = true) (rows : List Row) :
    ∀ (i0 : ℕ) (st : RunState),
      (runLoop transport dir rows i0 st).2 = true ∧
      (runLoop transport dir rows i0 st).1.posts =
        st.posts ++ rows.map (fun r => postFor dir r.sentence) ∧
      (runLoop transport dir rows i0 st).1.times.length =
        st.times.length + rows.length ∧
      (runLoop transport dir rows i0 st).1.measurements.length =
        st.measurements.length + rows.length := by
  induction rows with
  | nil => intro i0 st; simp [runLoop]
  | cons r rs ih =>
    intro i0 st
    have h := hok i0 (postFor dir r.sentence)
    cases htr : transport i0 (postFor dir r.sentence) with
    | error e => rw [htr] at h; simp [isOk] at h
    | ok v =>
      obtain ⟨data, d⟩ := v
      simp only [runLoop, htr]
      obtain ⟨hb, hp, ht, hm⟩ := ih (i0 + 1)
        { now := st.now + d
          posts := st.posts ++ [postFor dir r.sentence]
          times := st.times ++ [(st.now + d) - st.now]
          measurements := st.measurements ++
            [{ elapsed := (st.now + d) - st.now, response := data }] }
      refine ⟨hb, ?_, ?_, ?_⟩
      · rw [hp]; simp
      · rw [ht]; simp; omega
      · rw [hm]; simp; omega

/-- Throughout the loop, the `times` list is exactly the elapsed components
of the recorded measurements. -/
theorem runLoop_times_map (transport : Transport) (dir : Direction)
    (rows : List Row) :
    ∀ (i0 : ℕ) (st : RunState),
      st.times = st.measurements.map LatencyMeasurement.elapsed →
      (runLoop transport dir rows i0 st).1.times =
        (runLoop transport dir rows i0 st).1.measurements.map
          LatencyMeasurement.elapsed := by
  induction rows with
  | nil => intro i0 st h; simpa [runLoop] using h
  | cons r rs ih =>
    intro i0 st h
    cases htr : transport i0 (postFor dir r.sentence) with
    | error e => simp only [runLoop, htr]; exact h
    | ok v =>
      obtain ⟨data, d⟩ := v
      simp only [runLoop, htr]
      exact ih _ _ (by simp [h])

/-- If every successful round trip takes non-negative time (a monotone
wall clock), every recorded elapsed value is non-negative. -/
theorem runLoop_nonneg (transport : Transport) (dir : Direction)
    (hd : ∀ i p r d, transport i p = .ok (r, d) → 0 ≤ d) (rows : List Row) :
    ∀ (i0 : ℕ) (st : RunState),
      (∀ m ∈ st.measurements, 0 ≤ m.elapsed) →
      ∀ m ∈ (runLoop transport dir rows i0 st).1.measurements, 0 ≤ m.elapsed := by
  induction rows with
  | nil => intro i0 st h; simpa [runLoop] using h
  | cons r rs ih =>
    intro i0 st h
    cases htr : transport i0 (postFor dir r.sentence) with
    | error e => simp only [runLoop, htr]; exact h
    | ok v =>
      obtain ⟨data, d⟩ := v
      simp only [runLoop, htr]
      apply ih
      intro m hm
      rcases List.mem_append.1 hm with hm | hm
      · exact h m hm
      · have hd0 := hd i0 (postFor dir r.sentence) data d htr
        simp only [List.mem_singleton] at hm
        subst hm
        simp only
        linarith

/-- If the transport fails at call index `j` and succeeds strictly before
it, and `j` falls within the rows, the loop aborts having recorded exactly
the items before `j`. -/
theorem runLoop_failAt (transport : Transport) (dir : Direction) (j : ℕ)
    (hfail : ∀ p, isOk (transport j p) = false) (rows : List Row) :
    ∀ (i0 : ℕ) (st : RunState),
      (∀ i p, i < j → isOk (transport i p) = true) →
      i0 ≤ j → j < i0 + rows.length →
      (runLoop transport dir rows i0 st).2 = false ∧
      (runLoop transport dir rows i0 st).1.measurements.length =
        st.measurements.length + (j - i0) ∧
      (runLoop transport dir rows i0 st).1.times.length =
        st.times.length + (j - i0) := by
  induction rows with
  | nil => intro i0 st _ h1 h2; simp at h2; omega
  | cons r rs ih =>
    intro i0 st hok hle hlt
    by_cases hij : i0 = j
    · subst hij
      have h := hfail (postFor dir r.sentence)
      cases htr : transport i0 (postFor dir r.sentence) with
      | ok v => rw [htr] at h; simp [isOk] at h
      | error e => refine ⟨?_, ?_, ?_⟩ <;> simp [runLoop, htr]
    · have hlt0 : i0 < j := lt_of_le_of_ne hle hij
      have h := hok i0 (postFor dir r.sentence) hlt0
      cases htr : transport i0 (postFor dir r.sentence) with
      | error e => rw [htr] at h; simp [isOk] at h
      | ok v =>
        obtain ⟨data, d⟩ := v
        simp only [runLoop, htr]
        obtain ⟨hb, hm, ht⟩ := ih (i0 + 1)
          { now := st.now + d
            posts := st.posts ++ [postFor dir r.sentence]
            times := st.times ++ [(st.now + d) - st.now]
            measurements := st.measurements ++
              [{ elapsed := (st.now + d) - st.now, response := data }] }
          hok (by omega) (by simp only [List.length_cons] at hlt; omega)
        refine ⟨hb, ?_, ?_⟩
        · rw [hm]; simp; omega
        · rw [ht]; simp; omega

/-- Every request the loop issues is built by `postFor` from the fixed
direction of the pass, whether or not the loop completes. -/
theorem runLoop_posts_form (transport : Transport) (dir : Direction)
    (rows : List Row) :
    ∀ (i0 : ℕ) (st : RunState),
      (∀ p ∈ st.posts, ∃ t, p = postFor dir t) →
      ∀ p ∈ (runLoop transport dir rows i0 st).1.posts, ∃ t, p = postFor dir t := by
  induction rows with
  | nil => intro i0 st h; simpa [runLoop] using h
  | cons r rs ih =>
    intro i0 st h
    cases htr : transport i0 (postFor dir r.sentence) with
    | error e =>
      simp only [runLoop, htr]
      intro p hp
      rcases List.mem_append.1 hp with hp | hp
      · exact h p hp
      · simp only [List.mem_singleton] at hp; exact ⟨r.sentence, hp⟩
    | ok v =>
      obtain ⟨data, d⟩ := v
      simp only [runLoop, htr]
      apply ih
      intro p hp
      rcases List.mem_append.1 hp with hp | hp
      · exact h p hp
      · simp only [List.mem_singleton] at hp; exact ⟨r.sentence, hp⟩

/-- The loop reads only the `"sentence"` column of each row: rows agreeing
on their sentences drive the loop identically. -/
theorem runLoop_sentence_congr (transport : Transport) (dir : Direction) :
    ∀ (rows1 rows2 : List Row),
      rows1.map Row.sentence = rows2.map Row.sentence →
      ∀ (i0 : ℕ) (st : RunState),
        runLoop transport dir rows1 i0 st = runLoop transport dir rows2 i0 st := by
  intro rows1
  induction rows1 with
  | nil =>
    intro rows2 h i0 st
    cases rows2 with
    | nil => rfl
    | cons r2 rs2 => simp at h
  | cons r rs ih =>
    intro rows2 h i0 st
    cases rows2 with
    | nil => simp at h
    | cons r2 rs2 =>
      simp only [List.map_cons, List.cons.injEq] at h
      obtain ⟨h1, h2⟩ := h
      simp only [runLoop, h1]
      cases htr : transport i0 (postFor dir r2.sentence) with
      | error e => rfl
      | ok v =>
        obtain ⟨data, d⟩ := v
        exact ih rs2 h2 _ _

/-- Unfolding `run` when the loop aborted. -/
theorem run_of_failed (transport : Transport) (dir : Direction) (rows : List Row)
    (t0 : ℚ) (hb : (runLoop transport dir rows 0 (initState t0)).2 = false) :
    run transport dir rows t0 =
      { trace := (runLoop transport dir rows 0 (initState t0)).1
        outcome := .requestFailed } := by
  simp [run, hb]

/-- Unfolding `run` when the loop completed with a non-empty `times` list. -/
theorem run_of_ok_pos (transport : Transport) (dir : Direction) (rows : List Row)
    (t0 : ℚ) (hb : (runLoop transport dir rows 0 (initState t0)).2 = true)
    (hn : (runLoop transport dir rows 0 (initState t0)).1.times.length ≠ 0) :
    run transport dir rows t0 =
      { trace := (runLoop transport dir rows 0 (initState t0)).1
        outcome := .summary
          { count := (runLoop transport dir rows 0 (initState t0)).1.times.length
            mean_latency := (runLoop transport dir rows 0 (initState t0)).1.times.sum /
              (((runLoop transport dir rows 0 (initState t0)).1.times.length : ℕ) : ℚ) } } := by
  simp [run, hb, hn]

/-- The trace of a run is the loop's final state, however the run ended. -/
theorem run_trace (transport : Transport) (dir : Direction) (rows : List Row)
    (t0 : ℚ) :
    (run transport dir rows t0).trace =
      (runLoop transport dir rows 0 (initState t0)).1 := by
  simp only [run]
  split
  · split <;> rfl
  · rfl

/-- The "text" field of a harness request is the sentence it was built from. -/
theorem bodyText_postFor (dir : Direction) (t : String) :
    bodyText (postFor dir t) = some t := rfl

/-- The "source_lang" field of a harness request is the pass direction's source code. -/
theorem bodySourceLang_postFor (dir : Direction) (t : String) :
    bodySourceLang (postFor dir t) = some dir.source_lang := rfl

/-- The "target_lang" field of a harness request is the pass direction's target code. -/
theorem bodyTargetLang_postFor (dir : Direction) (t : String) :
    bodyTargetLang (postFor dir t) = some dir.target_lang := rfl

/-- A concrete one-row dataset. -/
def rowsOne : List Row := [{ sentence := "hi", otherFields := [] }]

/-- A concrete five-row dataset. -/
def rowsFive : List Row :=
  [{ sentence := "a", otherFields := [] }, { sentence := "b", otherFields := [] },
   { sentence := "c", otherFields := [] }, { sentence := "d", otherFields := [] },
   { sentence := "e", otherFields := [] }]

/-- A transport stub that fails exactly on the third call (index 2). -/
def stubFailThird : Transport :=
  fun i _ => if i = 2 then .error () else .ok ({ data := "r" }, 1)

/-- Claim C1, counterexample: on an empty row sequence the code still
executes `sum(times) / len(times)`, so the run ends in `ZeroDivisionError`
and no `RunSummary` with count 0 is returned. -/
theorem empty_run_divides_by_zero :
    (mainHighload (.ok []) stubOk 0).outcome = .zeroDivisionError ∧
    (mainHighload (.ok []) stubOk 0).outcome ≠
      .summary { count := 0, mean_latency := 0 } := by
  constructor
  · rfl
  · decide

/-- Claim C1 (amended): for an empty sentence sequence the run records zero
measurements and issues zero requests, but produces no RunSummary: the
final mean computation is still executed and fails with a division-by-zero
error. -/
theorem empty_run_zero_measurements_no_summary (transport : Transport) (t0 : ℚ) :
    mainHighload (.ok []) transport t0 =
      { trace := initState t0, outcome := .zeroDivisionError } := rfl

/-- Claim C7: if the dataset read fails, a DataUnavailable error is
surfaced at once: the run ends with that outcome, zero requests reach
the transport and zero measurements are recorded. -/
theorem data_unavailable_aborts_before_requests (transport : Transport) (t0 : ℚ) :
    mainHighload (.error ()) transport t0 =
      { trace := initState t0, outcome := .dataUnavailable } ∧
    (mainHighload (.error ()) transport t0).trace.posts = [] ∧
    (mainHighload (.error ()) transport t0).trace.measurements = [] :=
  ⟨rfl, rfl, rfl⟩

/-- Claim C2: if the transport fails at call index `j` (the (j+1)-th
sentence) of a longer sequence, having succeeded before it, the run
surfaces RequestFailed, records measurements only for the `j` items before
the failure (none for any later item), and produces no RunSummary. -/
theorem run_aborts_on_request_failure (transport : Transport) (dir : Direction)
    (rows : List Row) (t0 : ℚ) (j : ℕ) (hj : j < rows.length)
    (hok : ∀ i p, i < j → isOk (transport i p) = true)
    (hfail : ∀ p, isOk (transport j p) = false) :
    (run transport dir rows t0).outcome = .requestFailed ∧
    (run transport dir rows t0).trace.measurements.length = j ∧
    (run transport dir rows t0).trace.times.length = j := by
  obtain ⟨hb, hm, ht⟩ := runLoop_failAt transport dir j hfail rows 0 (initState t0)
    hok (Nat.zero_le j) (by simpa using hj)
  rw [run_of_failed transport dir rows t0 hb]
  refine ⟨rfl, ?_, ?_⟩
  · rw [hm]; simp [initState]
  · rw [ht]; simp [initState]

/-- Witness for C2 at a concrete input: five rows, a stub transport that
fails on the third call. -/
theorem run_aborts_on_request_failure_witness :
    (run stubFailThird dirUkEn rowsFive 0).outcome = .requestFailed ∧
    (run stubFailThird dirUkEn rowsFive 0).trace.measurements.length = 2 ∧
    (run stubFailThird dirUkEn rowsFive 0).trace.times.length = 2 :=
  run_aborts_on_request_failure stubFailThird dirUkEn rowsFive 0 2 (by decide)
    (fun i p hi => by
      simp only [stubFailThird]
      rw [if_neg (by omega)]
      rfl)
    (fun p => rfl)

/-- Claim C9: if every successful round trip advances the wall clock by a
non-negative duration (monotone clock), then every recorded measurement
has a non-negative elapsed value. -/
theorem recorded_elapsed_nonneg (transport : Transport) (dir : Direction)
    (rows : List Row) (t0 : ℚ)
    (hd : ∀ i p r d, transport i p = .ok (r, d) → 0 ≤ d) :
    ∀ m ∈ (run transport dir rows t0).trace.measurements, 0 ≤ m.elapsed := by
  intro m hm
  rw [run_trace] at hm
  exact runLoop_nonneg transport dir hd rows 0 (initState t0)
    (by simp [initState]) m hm

/-- Witness for C9 at a concrete input: the single measurement of a
one-row run under the always-succeeding stub has non-negative elapsed. -/
theorem recorded_elapsed_nonneg_witness :
    (0 : ℚ) ≤ ({ elapsed := 1, response := { data := "resp" } } :
      LatencyMeasurement).elapsed :=
  recorded_elapsed_nonneg stubOk dirUkEn rowsOne 0
    (fun i p r d h => by
      simp only [stubOk, Except.ok.injEq, Prod.mk.injEq] at h
      rw [← h.2]
      norm_num)
    _ (by
      rw [run_trace]
      simp [runLoop, rowsOne, initState, stubOk])

/-- Claim C10: only the "sentence" field of each row influences the run:
two row sequences with identical sentences in identical order produce, for
the same transport behaviour, identical request sequences, identical
measurements and the same reported outcome. -/
theorem run_depends_only_on_sentence_field (transport : Transport)
    (dir : Direction) (t0 : ℚ) (rows1 rows2 : List Row)
    (h : rows1.map Row.sentence = rows2.map Row.sentence) :
    run transport dir rows1 t0 = run transport dir rows2 t0 ∧
    mainHighload (.ok rows1) transport t0 = mainHighload (.ok rows2) transport t0 := by
  have hr := runLoop_sentence_congr transport dir rows1 rows2 h 0 (initState t0)
  constructor
  · simp only [run, hr]
  · have hr2 := runLoop_sentence_congr transport dirUkEn rows1 rows2 h 0 (initState t0)
    simp only [mainHighload, run, hr2]

/-- Witness for C10 at a concrete input: two one-row datasets with the same
sentence but different other columns yield the same run result. -/
theorem run_depends_only_on_sentence_field_witness :
    run stubOk dirUkEn [{ sentence := "x", otherFields := [("lang", "uk")] }] 0 =
      run stubOk dirUkEn
        [{ sentence := "x", otherFields := [("id", "7"), ("z", "q")] }] 0 :=
  (run_depends_only_on_sentence_field stubOk dirUkEn 0
    [{ sentence := "x", otherFields := [("lang", "uk")] }]
    [{ sentence := "x", otherFields := [("id", "7"), ("z", "q")] }] (by decide)).1

/-- The direction used by `testing.py`'s `call`:
`{"source_lang": "en", "target_lang": "uk"}`. -/
def dirEnUk : Direction := { source_lang := "en", target_lang := "uk" }

/-- Claim C3: in a run where all requests succeed, the reported
mean_latency is exactly the sum of the recorded elapsed values divided by
their number, whatever elapsed values the transport produces. -/
theorem run_mean_is_arithmetic_mean (transport : Transport) (dir : Direction)
    (rows : List Row) (t0 : ℚ)
    (hok : ∀ i p, isOk (transport i p) = true) (hne : rows ≠ []) :
    (run transport dir rows t0).outcome = .summary
      { count := (run transport dir rows t0).trace.measurements.length
        mean_latency :=
          ((run transport dir rows t0).trace.measurements.map
            LatencyMeasurement.elapsed).sum /
          (((run transport dir rows t0).trace.measurements.length : ℕ) : ℚ) } := by
  obtain ⟨hb, hp, ht, hm⟩ := runLoop_allOk transport dir hok rows 0 (initState t0)
  have htm := runLoop_times_map transport dir rows 0 (initState t0) rfl
  have hrn : rows.length ≠ 0 := fun hh => hne (List.length_eq_zero.mp hh)
  have hn : (runLoop transport dir rows 0 (initState t0)).1.times.length ≠ 0 := by
    rw [ht]; simpa [initState] using hrn
  rw [run_of_ok_pos transport dir rows t0 hb hn]
  simp only [htm, List.length_map]

/-- Witness for C3 at a concrete input: five rows under the
always-succeeding stub. -/
theorem run_mean_is_arithmetic_mean_witness :
    (run stubOk dirUkEn rowsFive 0).outcome = .summary
      { count := (run stubOk dirUkEn rowsFive 0).trace.measurements.length
        mean_latency :=
          ((run stubOk dirUkEn rowsFive 0).trace.measurements.map
            LatencyMeasurement.elapsed).sum /
          (((run stubOk dirUkEn rowsFive 0).trace.measurements.length : ℕ) : ℚ) } :=
  run_mean_is_arithmetic_mean stubOk dirUkEn rowsFive 0 (fun i p => rfl) (by decide)

/-- Claim C4: for a non-empty sequence of N rows and an always-succeeding
transport, the run records exactly N measurements (times has length N) and
ends in a RunSummary with count = N. -/
theorem run_records_all_items (transport : Transport) (dir : Direction)
    (rows : List Row) (t0 : ℚ)
    (hok : ∀ i p, isOk (transport i p) = true) (hne : rows ≠ []) :
    (run transport dir rows t0).trace.measurements.length = rows.length ∧
    (run transport dir rows t0).trace.times.length = rows.length ∧
    (run transport dir rows t0).outcome = .summary
      { count := rows.length
        mean_latency :=
          (run transport dir rows t0).trace.times.sum / ((rows.length : ℕ) : ℚ) } := by
  obtain ⟨hb, hp, ht, hm⟩ := runLoop_allOk transport dir hok rows 0 (initState t0)
  have hrn : rows.length ≠ 0 := fun hh => hne (List.length_eq_zero.mp hh)
  have hn : (runLoop transport dir rows 0 (initState t0)).1.times.length ≠ 0 := by
    rw [ht]; simpa [initState] using hrn
  have ht' : (runLoop transport dir rows 0 (initState t0)).1.times.length =
      rows.length := by
    rw [ht]; simp [initState]
  have hm' : (runLoop transport dir rows 0 (initState t0)).1.measurements.length =
      rows.length := by
    rw [hm]; simp [initState]
  rw [run_of_ok_pos transport dir rows t0 hb hn]
  exact ⟨hm', ht', by rw [ht']⟩

/-- Witness for C4 at a concrete input: five rows under the
always-succeeding stub. -/
theorem run_records_all_items_witness :
    (run stubOk dirUkEn rowsFive 0).trace.measurements.length = rowsFive.length ∧
    (run stubOk dirUkEn rowsFive 0).trace.times.length = rowsFive.length ∧
    (run stubOk dirUkEn rowsFive 0).outcome = .summary
      { count := rowsFive.length
        mean_latency :=
          (run stubOk dirUkEn rowsFive 0).trace.times.sum /
            ((rowsFive.length : ℕ) : ℚ) } :=
  run_records_all_items stubOk dirUkEn rowsFive 0 (fun i p => rfl) (by decide)

/-- Claim C5: with an always-succeeding transport the requests issued are
exactly one per input row, in input order, and the i-th request body's
"text" field is the i-th input sentence — no reordering, skipping or
duplication. -/
theorem run_requests_follow_input_order (transport : Transport) (dir : Direction)
    (rows : List Row) (t0 : ℚ) (hok : ∀ i p, isOk (transport i p) = true) :
    (run transport dir rows t0).trace.posts =
      rows.map (fun r => postFor dir r.sentence) ∧
    (run transport dir rows t0).trace.posts.map bodyText =
      rows.map (fun r => some r.sentence) := by
  obtain ⟨hb, hp, ht, hm⟩ := runLoop_allOk transport dir hok rows 0 (initState t0)
  rw [run_trace, hp]
  refine ⟨by simp [initState], ?_⟩
  simp [initState, List.map_map, Function.comp, bodyText_postFor]

/-- Witness for C5 at a concrete input: five rows under the
always-succeeding stub. -/
theorem run_requests_follow_input_order_witness :
    (run stubOk dirUkEn rowsFive 0).trace.posts =
      [postFor dirUkEn "a", postFor dirUkEn "b", postFor dirUkEn "c",
       postFor dirUkEn "d", postFor dirUkEn "e"] ∧
    (run stubOk dirUkEn rowsFive 0).trace.posts.map bodyText =
      [some "a", some "b", some "c", some "d", some "e"] := by
  obtain ⟨h1, h2⟩ :=
    run_requests_follow_input_order stubOk dirUkEn rowsFive 0 (fun i p => rfl)
  exact ⟨by rw [h1]; rfl, by rw [h2]; rfl⟩

/-- Claim C6: within one pass every emitted request carries exactly the
configured direction's language codes — with direction en→uk every request
of the pass has those codes, with the reversed direction every request has
the swapped codes — and the direction never varies between items of one
pass; likewise for the two static passes of `testing.py`. -/
theorem run_direction_fixed_within_pass :
    (∀ (dir : Direction) (transport : Transport) (rows : List Row) (t0 : ℚ),
      ∀ p ∈ (run transport dir rows t0).trace.posts,
        bodySourceLang p = some dir.source_lang ∧
        bodyTargetLang p = some dir.target_lang) ∧
    (∀ p ∈ sentences_ukrainian.map testingCall,
        bodySourceLang p = some "en" ∧ bodyTargetLang p = some "uk") ∧
    (∀ p ∈ sentences_english.map testingCallBack,
        bodySourceLang p = some "uk" ∧ bodyTargetLang p = some "en") := by
  refine ⟨?_, ?_, ?_⟩
  · intro dir transport rows t0 p hp
    rw [run_trace] at hp
    obtain ⟨t, rfl⟩ := runLoop_posts_form transport dir rows 0 (initState t0)
      (by simp [initState]) p hp
    exact ⟨bodySourceLang_postFor dir t, bodyTargetLang_postFor dir t⟩
  · intro p hp
    obtain ⟨t, ht, rfl⟩ := List.mem_map.1 hp
    exact ⟨rfl, rfl⟩
  · intro p hp
    obtain ⟨t, ht, rfl⟩ := List.mem_map.1 hp
    exact ⟨rfl, rfl⟩

/-- Witness for C6 at a concrete input: the request of a one-row en→uk run
carries exactly those codes. -/
theorem run_direction_fixed_within_pass_witness :
    bodySourceLang (postFor dirEnUk "hi") = some "en" ∧
    bodyTargetLang (postFor dirEnUk "hi") = some "uk" :=
  run_direction_fixed_within_pass.1 dirEnUk stubOk rowsOne 0
    (postFor dirEnUk "hi")
    (by rw [run_trace]; simp [runLoop, rowsOne, initState, stubOk])

/-- Claim C8: every request sent to the service — by the harness for any
direction and rows, and by both passes of `testing.py` — is an HTTP POST
to the configured endpoint whose JSON body has exactly the three fields
text, source_lang and target_lang. -/
theorem requests_are_posts_with_exact_fields :
    (∀ (dir : Direction) (transport : Transport) (rows : List Row) (t0 : ℚ),
      ∀ p ∈ (run transport dir rows t0).trace.posts,
        p.method = "POST" ∧ p.url = addr ∧
        p.jsonBody.map Prod.fst = ["text", "source_lang", "target_lang"]) ∧
    (∀ p ∈ testingMainPosts,
        p.method = "POST" ∧ p.url = addr ∧
        p.jsonBody.map Prod.fst = ["text", "source_lang", "target_lang"]) := by
  refine ⟨?_, ?_⟩
  · intro dir transport rows t0 p hp
    rw [run_trace] at hp
    obtain ⟨t, rfl⟩ := runLoop_posts_form transport dir rows 0 (initState t0)
      (by simp [initState]) p hp
    exact ⟨rfl, rfl, rfl⟩
  · intro p hp
    simp only [testingMainPosts] at hp
    rcases List.mem_append.1 hp with hp | hp
    · obtain ⟨t, ht, rfl⟩ := List.mem_map.1 hp
      exact ⟨rfl, rfl, rfl⟩
    · obtain ⟨t, ht, rfl⟩ := List.mem_map.1 hp
      exact ⟨rfl, rfl, rfl⟩

/-- Witness for C8 at a concrete input: the first request of `testing.py`'s
main sequence. -/
theorem requests_are_posts_with_exact_fields_witness :
    (testingCall "Привіт, світе!").method = "POST" ∧
    (testingCall "Привіт, світе!").url = addr ∧
    (testingCall "Привіт, світе!").jsonBody.map Prod.fst =
      ["text", "source_lang", "target_lang"] :=
  requests_are_posts_with_exact_fields.2 (testingCall "Привіт, світе!")
    (by simp [testingMainPosts, sentences_ukrainian])

end Kulyk
